import Mathlib

/-!
Verification development for the single-file YouTube downloader script
(`download.py`).  The script's pure logic (URL classification, multi-URL
parsing, worker-count selection, the retry loop, the concurrent-dispatch
orchestration and the `lru_cache` memoisation of `get_url_info`) is
shallowly embedded below.  Calls into the wrapped extraction library
(`yt_dlp.YoutubeDL.extract_info`) are modelled by explicit oracle values
(`DlOutcome`): the library may raise, return `None`, or return an info
dictionary; everything the script itself does with those outcomes is
translated from the source.  Side effects (prints, `os.makedirs`,
`executor.submit`, `time.sleep`) are reified as an effect trace.
-/

/-! ## Module constants (download.py lines 11-14) -/

def MAX_RETRIES : Nat := 3

def RETRY_DELAY : Nat := 2

def MAX_CONCURRENT_WORKERS : Nat := 5

def DEFAULT_CONCURRENT_WORKERS : Nat := 3

/-! ## Python string primitives used by the script

`pyWhitespace` is the set of characters matched by the regex class `\s`
(equivalently the characters stripped by `str.strip()`) for Python 3
text strings. -/

def pyWhitespaceChars : List Char :=
  [' ', '\t', '\n', '\r', '\x0b', '\x0c',
   '\x1c', '\x1d', '\x1e', '\x1f', '\x85', '\xa0',
   '\u1680', '\u2000', '\u2001', '\u2002', '\u2003', '\u2004', '\u2005',
   '\u2006', '\u2007', '\u2008', '\u2009', '\u200a', '\u2028', '\u2029',
   '\u202f', '\u205f', '\u3000']

def pyWhitespace (c : Char) : Bool := pyWhitespaceChars.contains c

/-- Python `str.strip()` with no argument: drop leading and trailing
whitespace. -/
def pyStrip (s : String) : String :=
  String.mk (((s.toList.dropWhile pyWhitespace).reverse.dropWhile pyWhitespace).reverse)

/-- Substring test on character lists: `subList needle hay` is Python
`needle in hay`. -/
def subList : List Char → List Char → Bool
  | [], _ => true
  | _ :: _, [] => false
  | needle, c :: rest₀ => needle.isPrefixOf (c :: rest₀) || subList needle rest₀

/-- Python `needle in hay` on strings. -/
def strContains (hay needle : String) : Bool := subList needle.toList hay.toList

/-- Python `str.title()` restricted to what the script feeds it
(ASCII words): uppercase a letter that begins a run of letters,
lowercase the other letters. -/
def pyTitleGo : Bool → List Char → List Char
  | _, [] => []
  | prevAlpha, c :: cs =>
    if c.isAlpha then
      (if prevAlpha then c.toLower else c.toUpper) :: pyTitleGo true cs
    else c :: pyTitleGo false cs

def pyTitle (s : String) : String := String.mk (pyTitleGo false s.toList)

/-! ## Models of `urllib.parse.urlparse` / `parse_qs`

Only the part the script uses: whether the query string of a URL
carries a `list` parameter.  `urlsplit` takes the query to be the text
after the first `?` of the part that precedes the first `#`;
`parse_qs` (with its default `keep_blank_values=False`) splits the
query on `&`, skips fields with no `=` or an empty value, and
percent-decodes the key with `unquote_plus`. -/

def urlQueryStr (url : String) : String :=
  let preFragment := url.toList.takeWhile (fun c => c ≠ '#')
  match preFragment.dropWhile (fun c => c ≠ '?') with
  | [] => ""
  | _ :: rest₀ => String.mk rest₀

/-- Split a character list at every occurrence of `sep`
(Python `str.split(sep)`; the empty list yields `[[]]`). -/
def splitEvery (sep : Char) : List Char → List (List Char)
  | [] => [[]]
  | c :: cs =>
    if c = sep then [] :: splitEvery sep cs
    else
      match splitEvery sep cs with
      | [] => [[c]]
      | t :: ts => (c :: t) :: ts

/-- Python `field.split(sep, 1)` when `sep` occurs: the text before the
first occurrence and the text after it; `none` when `sep` is absent. -/
def splitFirstAt (sep : Char) : List Char → Option (List Char × List Char)
  | [] => none
  | c :: cs =>
    if c = sep then some ([], cs)
    else
      match splitFirstAt sep cs with
      | some (a, b) => some (c :: a, b)
      | none => none

def isHexDigit (c : Char) : Bool :=
  c.isDigit || ('a' ≤ c && c ≤ 'f') || ('A' ≤ c && c ≤ 'F')

def hexVal (c : Char) : Nat :=
  if c.isDigit then c.toNat - 48
  else if 'a' ≤ c && c ≤ 'f' then c.toNat - 87
  else if 'A' ≤ c && c ≤ 'F' then c.toNat - 55
  else 0

/-- Python `urllib.parse.unquote_plus` at the byte/ASCII level: `+`
becomes a space and a valid `%hh` pair becomes the character with that
code; invalid escapes are left untouched. -/
def unquotePlusList : List Char → List Char
  | [] => []
  | '+' :: rest₀ => ' ' :: unquotePlusList rest₀
  | '%' :: a :: b :: rest₀ =>
    if isHexDigit a && isHexDigit b then
      Char.ofNat (16 * hexVal a + hexVal b) :: unquotePlusList rest₀
    else '%' :: unquotePlusList (a :: b :: rest₀)
  | c :: rest₀ => c :: unquotePlusList rest₀

/-- Keys of `urllib.parse.parse_qs(qs)` with the default options. -/
def parseQsKeys (qs : String) : List String :=
  (splitEvery '&' qs.toList).filterMap fun field =>
    if field.isEmpty then none
    else
      match splitFirstAt '=' field with
      | none => none
      | some (name, value) =>
        if value.isEmpty then none
        else some (String.mk (unquotePlusList name))

/-- `'list' in parse_qs(urlparse(url).query)` (download.py lines 43/46
and 63/67). -/
def hasListParam (url : String) : Bool :=
  (parseQsKeys (urlQueryStr url)).contains "list"

/-! ## URL classification (`get_url_info`, download.py lines 17-70)

The extractor call is an oracle (`DlOutcome`): raise, return `None`, or
return an info dictionary.  `InfoDict` keeps the keys the script reads:
`_type`, `uploader_id`, `title`, `entries`. -/

structure InfoDict where
  typeField : Option String := none
  uploaderId : Option String := none
  titleField : Option String := none
  entries : Option (List Unit) := none
deriving DecidableEq, Repr

def emptyInfo : InfoDict := ⟨none, none, none, none⟩

inductive DlOutcome where
  | raises (err : String)
  | retNone
  | retInfo (info : InfoDict)
deriving DecidableEq, Repr

/-- Python truthiness of an optional string (`if video_info.get('uploader_id')`). -/
def truthyStr : Option String → Bool
  | none => false
  | some s => !s.isEmpty

/-- The URL test `'/@' in url or '/channel/' in url or '/c/' in url or
'/user/' in url` (download.py lines 44/54/65). -/
def channelMarker (url : String) : Bool :=
  strContains url "/@" || strContains url "/channel/" ||
    strContains url "/c/" || strContains url "/user/"

/-- The textual classification used both when the extractor returns
`None` (lines 41-49) and when it raises (lines 61-70); the two source
blocks are identical. -/
def fallbackClassify (url : String) : String :=
  if channelMarker url then "channel"
  else if hasListParam url then "playlist"
  else "video"

/-- `get_url_info` (download.py lines 17-70): the extractor call is the
oracle `o`.  The `lru_cache(maxsize=128)` wrapper is modelled
separately (`lruRun`). -/
def get_url_info (o : DlOutcome) (url : String) : String × InfoDict :=
  match o with
  | .raises _ => (fallbackClassify url, emptyInfo)
  | .retNone => (fallbackClassify url, emptyInfo)
  | .retInfo info =>
    let contentType := info.typeField.getD "video"
    if contentType = "playlist" then
      if truthyStr info.uploaderId && channelMarker url then ("channel", info)
      else ("playlist", info)
    else (contentType, info)

/-- `get_content_type` (download.py lines 73-84). -/
def get_content_type (o : DlOutcome) (url : String) : String :=
  (get_url_info o url).1

/-! ## `parse_multiple_urls` (download.py lines 87-122) -/

/-- Separator class of `re.split(r'[,\s\n\t]+', ...)`: a comma or any
regex whitespace character (`\n` and `\t` are already inside `\s`). -/
def sepChar (c : Char) : Bool := c = ',' || pyWhitespace c

/-- `re.split(pattern+, s)`: split at every maximal run of separator
characters, keeping empty pieces at the two ends.  The Bool flag is
true while inside a separator run whose preceding token has already
been emitted. -/
def splitRunsGo (p : Char → Bool) : Bool → List Char → List Char → List (List Char)
  | true, [], _ => [[]]
  | false, [], cur => [cur.reverse]
  | true, c :: cs, _ =>
    if p c then splitRunsGo p true cs [] else splitRunsGo p false cs [c]
  | false, c :: cs, cur =>
    if p c then cur.reverse :: splitRunsGo p true cs []
    else splitRunsGo p false cs (c :: cur)

/-- The URL filter of `parse_multiple_urls` (download.py lines 104-112). -/
def isValidYt (url : String) : Bool :=
  (strContains url "youtube.com" || strContains url "youtu.be") &&
    (strContains url "/watch?" || strContains url "/playlist?" ||
     strContains url "/@" || strContains url "/channel/" ||
     strContains url "/c/" || strContains url "/user/" ||
     strContains url "youtu.be/")

/-- download.py lines 98-99: `re.split(r'[,\s\n\t]+', input.strip())`
followed by `[url.strip() for url in urls if url.strip()]`. -/
def pmTokens (input : String) : List String :=
  ((splitRunsGo sepChar false (pyStrip input).toList []).map String.mk).filterMap
    fun u => let s := pyStrip u; if s = "" then none else some s

/-- The accumulation loop of download.py lines 101-116 (the prints for
skipped entries carry no data the caller sees). -/
def pmLoop : List String → List String → List String
  | [], acc => acc
  | u :: us, acc =>
    if isValidYt u then pmLoop us (acc ++ [u]) else pmLoop us acc

def parse_multiple_urls (input : String) : List String :=
  pmLoop (pmTokens input) []

/-- The split the spec sentence describes literally: runs of commas,
spaces, tabs, or newlines only (for comparison with the source, whose
regex class `[,\s\n\t]+` also matches `\r`, form feed, vertical tab and
the other whitespace characters). -/
def claimedSepChar (c : Char) : Bool :=
  c = ',' || c = ' ' || c = '\t' || c = '\n'

def parse_multiple_urls_claimed (input : String) : List String :=
  ((((splitRunsGo claimedSepChar false (pyStrip input).toList []).map String.mk).filterMap
    fun u => let s := pyStrip u; if s = "" then none else some s).filter isValidYt)

/-! ## Python `int()` and the worker-count selection (lines 439-447) -/

def pyIntDigitsGo (acc : Nat) : List Char → Option Nat
  | [] => some acc
  | '_' :: c :: cs =>
    if c.isDigit then pyIntDigitsGo (acc * 10 + (c.toNat - 48)) cs else none
  | ['_'] => none
  | c :: cs =>
    if c.isDigit then pyIntDigitsGo (acc * 10 + (c.toNat - 48)) cs else none

def pyIntDigits : List Char → Option Nat
  | [] => none
  | c :: cs => if c.isDigit then pyIntDigitsGo (c.toNat - 48) cs else none

/-- Python `int(s)` on an ASCII string: optional surrounding
whitespace, optional sign, decimal digits with single interior
underscores; `none` models `ValueError`. -/
def pyInt? (s : String) : Option Int :=
  match (pyStrip s).toList with
  | '+' :: rest₀ => (pyIntDigits rest₀).map fun n => (n : Int)
  | '-' :: rest₀ => (pyIntDigits rest₀).map fun n => -(n : Int)
  | cs => (pyIntDigits cs).map fun n => (n : Int)

/-- `max(1, min(MAX_CONCURRENT_WORKERS, k))` (download.py line 445). -/
def pyClamp (k : Int) : Int := max 1 (min (MAX_CONCURRENT_WORKERS : Int) k)

/-- The interactive worker-count selection (download.py lines 439-447).
`workersInput` is the already-`.strip()`ed text the user typed; the
second component records whether the prompt was shown.  With one URL
the prompt is skipped and the initial value 1 is kept. -/
def computeMaxWorkers (urls : List String) (workersInput : String) : Int × Bool :=
  if urls.length ≤ 1 then (1, false)
  else if workersInput = "" then (pyClamp (DEFAULT_CONCURRENT_WORKERS : Int), true)
  else
    match pyInt? workersInput with
    | some k => (pyClamp k, true)
    | none => ((DEFAULT_CONCURRENT_WORKERS : Int), true)

/-! ## `download_single_video` (download.py lines 144-285)

The per-attempt `ydl.extract_info(url, download=True)` call is the
oracle `outcomes : Nat → DlOutcome` (indexed by the 1-based attempt
number).  The run records the returned result dict, the seconds slept
between attempts, and how many attempts were made. -/

structure DlResult where
  url : String
  success : Bool
  message : String
deriving DecidableEq, Repr

structure DlRun where
  result : DlResult
  sleeps : List Nat
  attempts : Nat
deriving DecidableEq, Repr

def noneMsg (tid : Nat) : String :=
  "❌ [Thread " ++ toString tid ++ "] Failed to extract video information. Video may be private or unavailable."

def emptyMsg (tid : Nat) (ct : String) : String :=
  "❌ [Thread " ++ toString tid ++ "] " ++ pyTitle ct ++ " appears to be empty or private"

def playlistOkMsg (tid : Nat) (ct title : String) (n : Nat) (audio : Bool) (op : String) : String :=
  "✅ [Thread " ++ toString tid ++ "] " ++ pyTitle ct ++ " \x27" ++ title ++
    "\x27 download completed! (" ++ toString n ++ " " ++
    (if audio then "MP3s" else "videos") ++ ") 📂 Location: " ++ op

def videoOkMsg (tid : Nat) (audio : Bool) (title op : String) : String :=
  "✅ [Thread " ++ toString tid ++ "] " ++ (if audio then "Audio" else "Video") ++
    " \x27" ++ title ++ "\x27 download completed! 📂 Location: " ++ op

def failedAfterMsg (tid : Nat) (lastErr : String) : String :=
  "❌ [Thread " ++ toString tid ++ "] Failed after " ++ toString MAX_RETRIES ++
    " attempts. Last error: " ++ lastErr

def unexpectedMsg (tid : Nat) (lastErr : Option String) : String :=
  "❌ [Thread " ++ toString tid ++ "] Unexpected error: " ++ lastErr.getD "None"

/-- The retry loop of download.py lines 229-285.  `fuel` is the number
of loop iterations still available (`MAX_RETRIES - attempt + 1`); the
`fuel = 0` case is the unreachable fall-through after the `for`
(lines 281-285). -/
def dsvGo (url op : String) (tid : Nat) (audio : Bool) (ct : String)
    (outcomes : Nat → DlOutcome) : Nat → Nat → Option String → DlRun
  | 0, _, lastErr => ⟨⟨url, false, unexpectedMsg tid lastErr⟩, [], 0⟩
  | fuel + 1, attempt, _ =>
    match outcomes attempt with
    | .retNone => ⟨⟨url, false, noneMsg tid⟩, [], 1⟩
    | .retInfo info =>
      if info.typeField = some "playlist" then
        let title := info.titleField.getD "Unknown Playlist"
        let n := (info.entries.getD []).length
        if n = 0 then ⟨⟨url, false, emptyMsg tid ct⟩, [], 1⟩
        else ⟨⟨url, true, playlistOkMsg tid ct title n audio op⟩, [], 1⟩
      else
        ⟨⟨url, true, videoOkMsg tid audio (info.titleField.getD "Unknown") op⟩, [], 1⟩
    | .raises e =>
      if attempt < MAX_RETRIES then
        let rest₀ := dsvGo url op tid audio ct outcomes fuel (attempt + 1) (some e)
        ⟨rest₀.result, (RETRY_DELAY * 2 ^ (attempt - 1)) :: rest₀.sleeps, rest₀.attempts + 1⟩
      else ⟨⟨url, false, failedAfterMsg tid e⟩, [], 1⟩

/-- `download_single_video` (download.py lines 144-285):
`classifyOutcome` is the oracle for the `get_url_info` call at line 211
and `outcomes` the per-attempt download oracle. -/
def download_single_video (url op : String) (tid : Nat) (audio : Bool)
    (classifyOutcome : DlOutcome) (outcomes : Nat → DlOutcome) : DlRun :=
  dsvGo url op tid audio (get_content_type classifyOutcome url) outcomes MAX_RETRIES 1 none

/-! ## `download_youtube_content` (download.py lines 288-367)

Side effects are reified: prints, `os.makedirs`, format listing, and
task submission to the thread pool.  The per-task
`download_single_video` results are the oracle
`taskResult : Nat → String → DlResult` (0-based enumeration index and
URL); `order` is the completion order `as_completed` happens to yield,
a permutation of the task indices.  The undefined names `failed` and
`successful` used at lines 362 and 366 make the summary raise
`NameError`; `RunEnd` records how the call ends. -/

inductive Effect where
  | printEff (s : String)
  | makedirsEff (path : String)
  | listFormatsEff (url : String)
  | submitEff (url : String) (threadId : Nat)
deriving DecidableEq, Repr

inductive PyErr where
  | nameError (n : String)
  | indexError
deriving DecidableEq, Repr

inductive RunEnd where
  | ok
  | err (e : PyErr)
deriving DecidableEq, Repr

structure RunOutput where
  effects : List Effect
  results : List DlResult
  outcome : RunEnd
deriving DecidableEq, Repr

def isSubmitEff : Effect → Bool
  | .submitEff _ _ => true
  | _ => false

def isMakedirsEff : Effect → Bool
  | .makedirsEff _ => true
  | _ => false

/-- The pre-download content summary line (download.py lines 317-334);
`classify` stands for `get_content_type`. -/
def dycContentLine (classify : String → String) (urls : List String) : String :=
  let playlistCount := (urls.filter fun u => classify u = "playlist").length
  let channelCount := (urls.filter fun u => classify u = "channel").length
  let videoCount := urls.length - playlistCount - channelCount
  let parts :=
    (if playlistCount > 0 then [toString playlistCount ++ " playlist(s)"] else []) ++
    (if channelCount > 0 then [toString channelCount ++ " channel(s)"] else []) ++
    (if videoCount > 0 then [toString videoCount ++ " video(s)"] else [])
  if parts ≠ [] then "📋 Content: " ++ String.intercalate " + " parts
  else "🎥 Content: Unknown content type"

def repChar (c : Char) (n : Nat) : String := String.mk (List.replicate n c)

/-- Effects of lines 310-336: `os.makedirs` and the banner prints. -/
def dycPreEffects (classify : String → String) (urls : List String)
    (op : String) (maxWorkers : Int) (audioOnly : Bool) : List Effect :=
  [.makedirsEff op,
   .printEff ("\n🚀 Starting download of " ++ toString urls.length ++ " URL(s) with " ++
     toString maxWorkers ++ " concurrent workers..."),
   .printEff ("📁 Output directory: " ++ op),
   .printEff ("🎧 Format: " ++ (if audioOnly then "MP3 Audio Only" else "MP4 Video")),
   .printEff (dycContentLine classify urls),
   .printEff (repChar '-' 60)]

/-- One submission per enumerated URL with `thread_id = i + 1`
(download.py lines 340-343). -/
def dycSubmitEffects (urls : List String) : List Effect :=
  (List.range urls.length).map fun i => .submitEff (urls.getD i "") (i + 1)

/-- The results of the submitted tasks in submission order. -/
def dycTaskResults (taskResult : Nat → String → DlResult) (urls : List String) :
    List DlResult :=
  (List.range urls.length).map fun i => taskResult i (urls.getD i "")

/-- The results in the order `as_completed` yields them
(download.py lines 345-348). -/
def dycCollected (taskResult : Nat → String → DlResult) (urls : List String)
    (order : List Nat) : List DlResult :=
  order.map fun i => taskResult i (urls.getD i "")

/-- The summary prints of lines 350-361; after these, line 362
(`for result in failed`) or line 366 (`if successful`) raises
`NameError`, so the prints stop here. -/
def dycSummaryEffects (results : List DlResult) : List Effect :=
  [.printEff ("\n" ++ repChar '=' 60),
   .printEff "📊 DOWNLOAD SUMMARY",
   .printEff (repChar '=' 60),
   .printEff ("✅ Successful downloads: " ++ toString (results.filter fun r => r.success).length),
   .printEff ("❌ Failed downloads: " ++ toString (results.filter fun r => !r.success).length)] ++
  (if (results.filter fun r => !r.success) ≠ [] then [Effect.printEff "\n❌ Failed URLs:"] else [])

/-- How the call ends: line 362 reads the undefined name `failed` when
there are failed downloads, otherwise line 366 reads the undefined
name `successful`. -/
def dycEnd (results : List DlResult) : RunEnd :=
  if (results.filter fun r => !r.success) ≠ [] then .err (.nameError "failed")
  else .err (.nameError "successful")

/-- `download_youtube_content` (download.py lines 288-367).  `cwd`
models `os.getcwd()` for the default output path. -/
def download_youtube_content (classify : String → String)
    (taskResult : Nat → String → DlResult) (order : List Nat) (cwd : String)
    (urls : List String) (outputPath : Option String) (listFormats : Bool)
    (maxWorkers : Int) (audioOnly : Bool) : RunOutput :=
  let op := outputPath.getD (cwd ++ "/downloads")
  if listFormats then
    match urls with
    | [] => ⟨[.printEff "Available formats for the first provided URL:"], [], .err .indexError⟩
    | u :: _ =>
      ⟨[.printEff "Available formats for the first provided URL:", .listFormatsEff u], [], .ok⟩
  else
    let collected := dycCollected taskResult urls order
    ⟨dycPreEffects classify urls op maxWorkers audioOnly ++
       dycSubmitEffects urls ++
       collected.map (fun r => Effect.printEff r.message) ++
       dycSummaryEffects collected,
     collected,
     dycEnd collected⟩

/-! ## The `lru_cache(maxsize=128)` wrapper on `get_url_info`
(download.py lines 17-18)

`functools.lru_cache` keyed on the URL string: a hit moves the entry to
the most-recent position; a miss computes the value (consuming the next
oracle outcome — one real extractor call per miss), inserts it in
front, and drops the least-recently-used entry when the cache exceeds
`maxsize`.  The cache list keeps the most recent entry first. -/

def assocFind (k : String) : List (String × α) → Option α
  | [] => none
  | (k₀, v) :: rest₀ => if k₀ = k then some v else assocFind k rest₀

def assocRemove (k : String) : List (String × α) → List (String × α)
  | [] => []
  | (k₀, v) :: rest₀ => if k₀ = k then rest₀ else (k₀, v) :: assocRemove k rest₀

/-- A run of calls to the cached `get_url_info`: for each URL in
`calls`, the returned `(content_type, info)` pair; `stream` holds the
extractor outcome each cache miss would observe. -/
def lruRun (maxsize : Nat) :
    List String → List DlOutcome → List (String × (String × InfoDict)) →
      List (String × InfoDict)
  | [], _, _ => []
  | u :: us, stream, cache =>
    match assocFind u cache with
    | some v => v :: lruRun maxsize us stream ((u, v) :: assocRemove u cache)
    | none =>
      let v := get_url_info (stream.headD (DlOutcome.raises "")) u
      v :: lruRun maxsize us stream.tail (((u, v) :: cache).take maxsize)

/-- The same run without eviction (an unbounded memo table); used to
state what the caching guarantees when no entry is ever evicted. -/
def memoRun :
    List String → List DlOutcome → List (String × (String × InfoDict)) →
      List (String × InfoDict)
  | [], _, _ => []
  | u :: us, stream, cache =>
    match assocFind u cache with
    | some v => v :: memoRun us stream ((u, v) :: assocRemove u cache)
    | none =>
      let v := get_url_info (stream.headD (DlOutcome.raises "")) u
      v :: memoRun us stream.tail ((u, v) :: cache)

/-- Number of distinct URLs in `calls` that are not already in `known`. -/
def newCount : List String → List String → Nat
  | [], _ => 0
  | u :: us, known =>
    if u ∈ known then newCount us known else newCount us (u :: known) + 1

/-! ## Concrete inputs used by the counterexamples and the code-bug
evaluation -/

def c2Urls : List String := ["https://www.youtube.com/watch?v=dQw4w9WgXcQ"]

def c2Classify : String → String := fun _ => "video"

def c2TaskFail : Nat → String → DlResult := fun _ u => ⟨u, false, "boom"⟩

def c2TaskOk : Nat → String → DlResult := fun _ u => ⟨u, true, "fine"⟩

def c5Input : String := "https://youtu.be/a\x0chttps://youtu.be/b"

def c8Url : String := "https://www.youtube.com/watch?v=main"

def c8Fill : List String :=
  (List.range 128).map fun i => "f" ++ toString i

def c8Calls : List String := [c8Url] ++ c8Fill ++ [c8Url]

def c8InfoA : InfoDict := ⟨some "video", none, some "A", none⟩

def c8InfoB : InfoDict := ⟨some "playlist", none, some "B", some [(), ()]⟩

def c8Stream : List DlOutcome :=
  [DlOutcome.retInfo c8InfoA] ++ List.replicate 128 DlOutcome.retNone ++
    [DlOutcome.retInfo c8InfoB]

def c8Run : List (String × InfoDict) := lruRun 128 c8Calls c8Stream []

/-! ## Claim theorems -/

/-- C6: when the wrapped extractor raises or returns `None`,
`get_url_info` classifies the URL from its text alone — `channel` for a
channel path marker, else `playlist` when the query string carries a
`list` parameter, else `video` — and `get_content_type` returns exactly
this classification. -/
theorem C6_fallback_classification (o : DlOutcome) (url : String)
    (h : o = DlOutcome.retNone ∨ ∃ e, o = DlOutcome.raises e) :
    get_url_info o url = (fallbackClassify url, emptyInfo) ∧
    get_content_type o url =
      (if channelMarker url then "channel"
       else if hasListParam url then "playlist" else "video") := by
  rcases h with h | ⟨e, h⟩ <;> subst h <;> exact ⟨rfl, rfl⟩

theorem C6_witness :
    get_content_type DlOutcome.retNone "https://www.youtube.com/watch?v=x&list=PL" =
      "playlist" := by
  have h := C6_fallback_classification DlOutcome.retNone
    "https://www.youtube.com/watch?v=x&list=PL" (Or.inl rfl)
  rw [h.2]; decide

/-- C10: in the textual fallback classification, the channel test takes
precedence — a URL with a channel path marker and a `list` query
parameter is classified `channel`, not `playlist`. -/
theorem C10_channel_over_playlist (url : String)
    (h₁ : channelMarker url = true) (h₂ : hasListParam url = true) :
    fallbackClassify url = "channel" ∧
    get_content_type DlOutcome.retNone url = "channel" := by
  refine ⟨by simp [fallbackClassify, h₁], ?_⟩
  simp [get_content_type, get_url_info, fallbackClassify, h₁]

theorem C10_witness :
    channelMarker "https://www.youtube.com/c/mychannel?list=PL123" = true ∧
    hasListParam "https://www.youtube.com/c/mychannel?list=PL123" = true ∧
    fallbackClassify "https://www.youtube.com/c/mychannel?list=PL123" = "channel" :=
  ⟨by decide, by decide,
    (C10_channel_over_playlist "https://www.youtube.com/c/mychannel?list=PL123"
      (by decide) (by decide)).1⟩

/-- C9: an extractor `None` on the first attempt, or a playlist result
with zero entries, makes `download_single_video` return a failure
immediately: one attempt, no backoff sleep, no retry. -/
theorem C9_no_retry_on_none_or_empty (url op : String) (tid : Nat) (audio : Bool)
    (cls : DlOutcome) (outcomes : Nat → DlOutcome) :
    (outcomes 1 = DlOutcome.retNone →
      download_single_video url op tid audio cls outcomes =
        ⟨⟨url, false, noneMsg tid⟩, [], 1⟩) ∧
    (∀ info, outcomes 1 = DlOutcome.retInfo info →
      info.typeField = some "playlist" → (info.entries.getD []).length = 0 →
      download_single_video url op tid audio cls outcomes =
        ⟨⟨url, false, emptyMsg tid (get_content_type cls url)⟩, [], 1⟩) := by
  constructor
  · intro h
    simp [download_single_video, MAX_RETRIES, dsvGo, h]
  · intro info h htyp hlen
    simp [download_single_video, MAX_RETRIES, dsvGo, h, htyp, hlen]

theorem C9_witness :
    download_single_video "u" "/out" 1 false DlOutcome.retNone (fun _ => DlOutcome.retNone) =
      ⟨⟨"u", false, noneMsg 1⟩, [], 1⟩ ∧
    download_single_video "u" "/out" 1 false DlOutcome.retNone
        (fun _ => DlOutcome.retInfo ⟨some "playlist", none, some "T", some []⟩) =
      ⟨⟨"u", false, emptyMsg 1 (get_content_type DlOutcome.retNone "u")⟩, [], 1⟩ :=
  ⟨(C9_no_retry_on_none_or_empty "u" "/out" 1 false DlOutcome.retNone
      (fun _ => DlOutcome.retNone)).1 rfl,
   (C9_no_retry_on_none_or_empty "u" "/out" 1 false DlOutcome.retNone
      (fun _ => DlOutcome.retInfo ⟨some "playlist", none, some "T", some []⟩)).2
     ⟨some "playlist", none, some "T", some []⟩ rfl rfl rfl⟩

/-- C3: in the interactive path, with more than one URL the worker
count is the entered integer clamped to 1..MAX_CONCURRENT_WORKERS,
DEFAULT_CONCURRENT_WORKERS when the input is empty or unparseable;
with exactly one URL it is 1 and the prompt is skipped. -/
theorem C3_worker_count (urls : List String) (wi : String) :
    (urls.length = 1 → computeMaxWorkers urls wi = (1, false)) ∧
    (1 < urls.length →
      (computeMaxWorkers urls wi).2 = true ∧
      (wi = "" → (computeMaxWorkers urls wi).1 = (DEFAULT_CONCURRENT_WORKERS : Int)) ∧
      (∀ k, pyInt? wi = some k →
        (computeMaxWorkers urls wi).1 = max 1 (min (MAX_CONCURRENT_WORKERS : Int) k)) ∧
      (pyInt? wi = none → (computeMaxWorkers urls wi).1 = (DEFAULT_CONCURRENT_WORKERS : Int))) := by
  constructor
  · intro h
    simp [computeMaxWorkers, h]
  · intro h
    have hlen : ¬ urls.length ≤ 1 := by omega
    by_cases hwi : wi = ""
    · subst hwi
      have hv : computeMaxWorkers urls "" = (pyClamp (DEFAULT_CONCURRENT_WORKERS : Int), true) := by
        simp [computeMaxWorkers, hlen]
      refine ⟨by rw [hv], fun _ => by rw [hv]; decide, ?_, fun _ => by rw [hv]; decide⟩
      intro k hk
      have hnone : pyInt? "" = none := by decide
      rw [hnone] at hk
      exact Option.noConfusion hk
    · refine ⟨?_, fun h' => absurd h' hwi, ?_, ?_⟩
      · cases hp : pyInt? wi <;> simp [computeMaxWorkers, hlen, hwi, hp]
      · intro k hk
        simp [computeMaxWorkers, hlen, hwi, hk, pyClamp]
      · intro hp
        simp [computeMaxWorkers, hlen, hwi, hp]

theorem C3_witness :
    computeMaxWorkers ["u"] "9" = (1, false) ∧
    (computeMaxWorkers ["u1", "u2"] "7").1 = 5 ∧
    (computeMaxWorkers ["u1", "u2"] "").1 = 3 ∧
    (computeMaxWorkers ["u1", "u2"] "abc").1 = 3 ∧
    (computeMaxWorkers ["u1", "u2"] "-4").1 = 1 := by
  refine ⟨(C3_worker_count ["u"] "9").1 rfl, ?_, ?_, ?_, ?_⟩
  · rw [((C3_worker_count ["u1", "u2"] "7").2 (by decide)).2.2.1 7 (by decide)]; decide
  · rw [((C3_worker_count ["u1", "u2"] "").2 (by decide)).2.1 rfl]; decide
  · rw [((C3_worker_count ["u1", "u2"] "abc").2 (by decide)).2.2.2 (by decide)]; decide
  · rw [((C3_worker_count ["u1", "u2"] "-4").2 (by decide)).2.2.1 (-4) (by decide)]; decide

/-! Helper lemmas for pushing record projections through `if`. -/

theorem attempts_ite (c : Prop) [Decidable c] (a b : DlRun) :
    (if c then a else b).attempts = if c then a.attempts else b.attempts := by
  split <;> rfl

theorem sleeps_ite (c : Prop) [Decidable c] (a b : DlRun) :
    (if c then a else b).sleeps = if c then a.sleeps else b.sleeps := by
  split <;> rfl

/-- C1: `download_single_video` makes at most MAX_RETRIES = 3 attempts;
the sleep after failing attempt k (k < 3) is RETRY_DELAY * 2 ^ (k - 1)
(2s, then 4s), and when all three attempts raise, the function returns
a `success = False` result carrying the last error instead of
propagating the exception. -/
theorem C1_retry_backoff (url op : String) (tid : Nat) (audio : Bool)
    (cls : DlOutcome) (outcomes : Nat → DlOutcome) :
    (download_single_video url op tid audio cls outcomes).attempts ≤ MAX_RETRIES ∧
    (download_single_video url op tid audio cls outcomes).sleeps =
      (List.range ((download_single_video url op tid audio cls outcomes).attempts - 1)).map
        (fun i => RETRY_DELAY * 2 ^ i) ∧
    (∀ e₁ e₂ e₃, outcomes 1 = DlOutcome.raises e₁ → outcomes 2 = DlOutcome.raises e₂ →
      outcomes 3 = DlOutcome.raises e₃ →
      (download_single_video url op tid audio cls outcomes).result =
        ⟨url, false, failedAfterMsg tid e₃⟩) := by
  rcases h1 : outcomes 1 with e₁ | _ | i₁
  · rcases h2 : outcomes 2 with e₂ | _ | i₂
    · rcases h3 : outcomes 3 with e₃ | _ | i₃
      · refine ⟨?_, ?_, ?_⟩
        · simp [download_single_video, MAX_RETRIES, dsvGo, h1, h2, h3]
        · simp [download_single_video, MAX_RETRIES, RETRY_DELAY, dsvGo, h1, h2, h3,
            List.range_succ]
        · intro f₁ f₂ f₃ g₁ g₂ g₃
          cases g₃
          simp [download_single_video, MAX_RETRIES, dsvGo, h1, h2, h3]
      · refine ⟨?_, ?_, ?_⟩
        · simp [download_single_video, MAX_RETRIES, dsvGo, h1, h2, h3]
        · simp [download_single_video, MAX_RETRIES, RETRY_DELAY, dsvGo, h1, h2, h3,
            List.range_succ]
        · intro f₁ f₂ f₃ g₁ g₂ g₃
          exact DlOutcome.noConfusion g₃
      · refine ⟨?_, ?_, ?_⟩
        · simp [download_single_video, MAX_RETRIES, dsvGo, h1, h2, h3,
            attempts_ite, ite_self]
        · simp [download_single_video, MAX_RETRIES, RETRY_DELAY, dsvGo, h1, h2, h3,
            attempts_ite, sleeps_ite, ite_self, List.range_succ]
        · intro f₁ f₂ f₃ g₁ g₂ g₃
          exact DlOutcome.noConfusion g₃
    · refine ⟨?_, ?_, ?_⟩
      · simp [download_single_video, MAX_RETRIES, dsvGo, h1, h2]
      · simp [download_single_video, MAX_RETRIES, RETRY_DELAY, dsvGo, h1, h2,
          List.range_succ]
      · intro f₁ f₂ f₃ g₁ g₂ g₃
        exact DlOutcome.noConfusion g₂
    · refine ⟨?_, ?_, ?_⟩
      · simp [download_single_video, MAX_RETRIES, dsvGo, h1, h2,
          attempts_ite, ite_self]
      · simp [download_single_video, MAX_RETRIES, RETRY_DELAY, dsvGo, h1, h2,
          attempts_ite, sleeps_ite, ite_self, List.range_succ]
      · intro f₁ f₂ f₃ g₁ g₂ g₃
        exact DlOutcome.noConfusion g₂
  · refine ⟨?_, ?_, ?_⟩
    · simp [download_single_video, MAX_RETRIES, dsvGo, h1]
    · simp [download_single_video, MAX_RETRIES, dsvGo, h1]
    · intro f₁ f₂ f₃ g₁ g₂ g₃
      exact DlOutcome.noConfusion g₁
  · refine ⟨?_, ?_, ?_⟩
    · simp [download_single_video, MAX_RETRIES, dsvGo, h1, attempts_ite, ite_self]
    · simp [download_single_video, MAX_RETRIES, dsvGo, h1,
        attempts_ite, sleeps_ite, ite_self]
    · intro f₁ f₂ f₃ g₁ g₂ g₃
      exact DlOutcome.noConfusion g₁

theorem C1_witness :
    (download_single_video "u" "/out" 1 false DlOutcome.retNone
        (fun _ => DlOutcome.raises "boom")).result =
      ⟨"u", false, failedAfterMsg 1 "boom"⟩ :=
  (C1_retry_backoff "u" "/out" 1 false DlOutcome.retNone
      (fun _ => DlOutcome.raises "boom")).2.2 "boom" "boom" "boom" rfl rfl rfl

/-- Accumulator characterisation of the `parse_multiple_urls` loop. -/
theorem pmLoop_eq_filter (l : List String) :
    ∀ acc, pmLoop l acc = acc ++ l.filter isValidYt := by
  induction l with
  | nil => intro acc; simp [pmLoop]
  | cons u us ih =>
    intro acc
    by_cases h : isValidYt u
    · simp [pmLoop, h, ih, List.filter_cons]
    · simp [pmLoop, h, ih, List.filter_cons]

/-- C5 (amended): `parse_multiple_urls` splits its input on every
maximal run of commas or whitespace characters (the regex class
`[,\s\n\t]+`, which beyond spaces, tabs and newlines also matches
carriage returns, form feeds, vertical tabs and the other Unicode
whitespace) and returns, in their original order, exactly the tokens
accepted by `isValidYt`; it returns `[]` when no token qualifies. -/
theorem C5_split_and_filter (input : String) :
    parse_multiple_urls input = (pmTokens input).filter isValidYt ∧
    (∀ u ∈ parse_multiple_urls input, isValidYt u = true) ∧
    ((pmTokens input).filter isValidYt = [] → parse_multiple_urls input = []) := by
  have h₀ : parse_multiple_urls input = (pmTokens input).filter isValidYt := by
    simpa [parse_multiple_urls] using pmLoop_eq_filter (pmTokens input) []
  refine ⟨h₀, ?_, ?_⟩
  · intro u hu
    rw [h₀] at hu
    exact (List.mem_filter.mp hu).2
  · intro h
    rw [h₀, h]

theorem C5_witness : parse_multiple_urls "no valid url here" = [] :=
  (C5_split_and_filter "no valid url here").2.2 (by decide)

theorem C5_counterexample :
    parse_multiple_urls c5Input ≠ parse_multiple_urls_claimed c5Input ∧
    parse_multiple_urls c5Input = ["https://youtu.be/a", "https://youtu.be/b"] ∧
    parse_multiple_urls_claimed c5Input = ["https://youtu.be/a\x0chttps://youtu.be/b"] := by
  refine ⟨?_, by decide, by decide⟩
  decide

/-- C7: with `list_formats = True` and a non-empty URL list,
`download_youtube_content` only prints the banner and lists the formats
of the first URL, then returns: no directory is created and no task is
submitted; with an empty URL list the access to `urls[0]` raises
`IndexError`. -/
theorem C7_list_formats_only (classify : String → String)
    (taskResult : Nat → String → DlResult) (order : List Nat) (cwd : String)
    (urls : List String) (outputPath : Option String) (maxWorkers : Int)
    (audioOnly : Bool) (h : urls ≠ []) :
    (download_youtube_content classify taskResult order cwd urls outputPath true
        maxWorkers audioOnly).effects =
      [Effect.printEff "Available formats for the first provided URL:",
       Effect.listFormatsEff (urls.headD "")] ∧
    (download_youtube_content classify taskResult order cwd urls outputPath true
        maxWorkers audioOnly).outcome = RunEnd.ok ∧
    ((download_youtube_content classify taskResult order cwd urls outputPath true
        maxWorkers audioOnly).effects.filter isMakedirsEff) = [] ∧
    ((download_youtube_content classify taskResult order cwd urls outputPath true
        maxWorkers audioOnly).effects.filter isSubmitEff) = [] ∧
    (download_youtube_content classify taskResult order cwd [] outputPath true
        maxWorkers audioOnly).outcome = RunEnd.err PyErr.indexError := by
  cases urls with
  | nil => exact absurd rfl h
  | cons u us => exact ⟨rfl, rfl, rfl, rfl, rfl⟩

theorem C7_witness :
    (download_youtube_content c2Classify c2TaskOk [0] "/home" c2Urls none true
        3 false).effects =
      [Effect.printEff "Available formats for the first provided URL:",
       Effect.listFormatsEff (c2Urls.headD "")] :=
  (C7_list_formats_only c2Classify c2TaskOk [0] "/home" c2Urls none 3 false
      (by decide)).1

/-- C2 (code bug): the summary of `download_youtube_content` reads the
undefined names `failed` (line 362, when some download failed) or
`successful` (line 366, otherwise), so after printing the success and
failure counts the call always raises `NameError` instead of returning
normally. -/
theorem C2_summary_name_error :
    (download_youtube_content c2Classify c2TaskFail [0] "/home" c2Urls none false
        3 false).outcome = RunEnd.err (PyErr.nameError "failed") ∧
    (download_youtube_content c2Classify c2TaskOk [0] "/home" c2Urls none false
        3 false).outcome = RunEnd.err (PyErr.nameError "successful") ∧
    Effect.printEff "✅ Successful downloads: 0" ∈
      (download_youtube_content c2Classify c2TaskFail [0] "/home" c2Urls none false
        3 false).effects ∧
    Effect.printEff "❌ Failed downloads: 1" ∈
      (download_youtube_content c2Classify c2TaskFail [0] "/home" c2Urls none false
        3 false).effects := by
  refine ⟨by decide, by decide, by decide, by decide⟩

/-! Helper lemmas for the submission/collection claim. -/

theorem filter_submit_printMap (l : List DlResult) :
    (l.map fun r => Effect.printEff r.message).filter isSubmitEff = [] := by
  induction l with
  | nil => rfl
  | cons r rs ih => simpa [List.filter, isSubmitEff] using ih

theorem filter_submit_summary (rs : List DlResult) :
    (dycSummaryEffects rs).filter isSubmitEff = [] := by
  unfold dycSummaryEffects
  split <;> rfl

theorem filter_submit_pre (classify : String → String) (urls : List String)
    (op : String) (mw : Int) (ao : Bool) :
    (dycPreEffects classify urls op mw ao).filter isSubmitEff = [] := rfl

theorem filter_submit_submits (urls : List String) :
    (dycSubmitEffects urls).filter isSubmitEff = dycSubmitEffects urls := by
  apply List.filter_eq_self.mpr
  intro a ha
  rcases List.mem_map.mp ha with ⟨i, _, rfl⟩
  rfl

/-- C4: `download_youtube_content` submits exactly one task per URL
with `thread_id i + 1` for the URL at index i, and collects exactly
`n` results — a permutation of the per-task results — before any
summary effect. -/
theorem C4_one_task_per_url (classify : String → String)
    (taskResult : Nat → String → DlResult) (order : List Nat) (cwd : String)
    (urls : List String) (outputPath : Option String) (maxWorkers : Int)
    (audioOnly : Bool) (hord : order.Perm (List.range urls.length)) :
    (download_youtube_content classify taskResult order cwd urls outputPath false
        maxWorkers audioOnly).effects.filter isSubmitEff = dycSubmitEffects urls ∧
    (download_youtube_content classify taskResult order cwd urls outputPath false
        maxWorkers audioOnly).results.length = urls.length ∧
    (download_youtube_content classify taskResult order cwd urls outputPath false
        maxWorkers audioOnly).results.Perm (dycTaskResults taskResult urls) ∧
    (download_youtube_content classify taskResult order cwd urls outputPath false
        maxWorkers audioOnly).effects =
      dycPreEffects classify urls (outputPath.getD (cwd ++ "/downloads")) maxWorkers audioOnly ++
        dycSubmitEffects urls ++
        (download_youtube_content classify taskResult order cwd urls outputPath false
          maxWorkers audioOnly).results.map (fun r => Effect.printEff r.message) ++
        dycSummaryEffects
          (download_youtube_content classify taskResult order cwd urls outputPath false
            maxWorkers audioOnly).results := by
  have heff : (download_youtube_content classify taskResult order cwd urls outputPath false
      maxWorkers audioOnly).effects =
      dycPreEffects classify urls (outputPath.getD (cwd ++ "/downloads")) maxWorkers audioOnly ++
        dycSubmitEffects urls ++
        (dycCollected taskResult urls order).map (fun r => Effect.printEff r.message) ++
        dycSummaryEffects (dycCollected taskResult urls order) := rfl
  have hres : (download_youtube_content classify taskResult order cwd urls outputPath false
      maxWorkers audioOnly).results = dycCollected taskResult urls order := rfl
  refine ⟨?_, ?_, ?_, ?_⟩
  · rw [heff, List.filter_append, List.filter_append, List.filter_append,
      filter_submit_pre, filter_submit_submits, filter_submit_printMap,
      filter_submit_summary]
    simp
  · rw [hres]
    simp only [dycCollected, List.length_map]
    simpa using hord.length_eq
  · rw [hres]
    exact List.Perm.map _ hord
  · rw [heff, hres]

theorem C4_witness :
    (download_youtube_content c2Classify c2TaskOk [1, 0] "/home" ["a", "b"] none false
        3 false).results.length = 2 :=
  (C4_one_task_per_url c2Classify c2TaskOk [1, 0] "/home" ["a", "b"] none 3 false
      (by decide)).2.1

/-! Helper lemmas about the association-list cache used to model
`functools.lru_cache`. -/

theorem assocFind_mem {α : Type} (k : String) (c : List (String × α)) (v : α)
    (h : assocFind k c = some v) : k ∈ c.map Prod.fst := by
  induction c with
  | nil => simp [assocFind] at h
  | cons kv rest ih =>
    rcases kv with ⟨k₀, v₀⟩
    by_cases hk : k₀ = k
    · subst hk; simp
    · simp only [assocFind, if_neg hk] at h
      simp only [List.map_cons, List.mem_cons]
      exact Or.inr (ih h)

theorem assocFind_eq_none_iff {α : Type} (k : String) (c : List (String × α)) :
    assocFind k c = none ↔ k ∉ c.map Prod.fst := by
  induction c with
  | nil => simp [assocFind]
  | cons kv rest ih =>
    rcases kv with ⟨k₀, v₀⟩
    by_cases hk : k₀ = k
    · subst hk; simp [assocFind]
    · simp [assocFind, hk, ih, Ne.symm hk]

theorem assocRemove_length {α : Type} (k : String) (c : List (String × α)) (v : α)
    (h : assocFind k c = some v) : (assocRemove k c).length + 1 = c.length := by
  induction c with
  | nil => simp [assocFind] at h
  | cons kv rest ih =>
    rcases kv with ⟨k₀, v₀⟩
    by_cases hk : k₀ = k
    · simp [assocRemove, hk]
    · simp only [assocFind, if_neg hk] at h
      simp [assocRemove, hk, ih h]

theorem mem_keys_assocRemove_ne {α : Type} (k x : String) (hne : x ≠ k)
    (c : List (String × α)) :
    (x ∈ (assocRemove k c).map Prod.fst) ↔ x ∈ c.map Prod.fst := by
  induction c with
  | nil => simp [assocRemove]
  | cons kv rest ih =>
    rcases kv with ⟨k₀, v₀⟩
    by_cases hk : k₀ = k
    · subst hk
      simp [assocRemove, hne, Ne.symm hne]
    · simp [assocRemove, hk, ih]

theorem assocFind_assocRemove_ne {α : Type} (k x : String) (hne : x ≠ k)
    (c : List (String × α)) :
    assocFind x (assocRemove k c) = assocFind x c := by
  induction c with
  | nil => simp [assocRemove]
  | cons kv rest ih =>
    rcases kv with ⟨k₀, v₀⟩
    by_cases hk : k₀ = k
    · subst hk
      simp [assocRemove, assocFind, Ne.symm hne]
    · by_cases hx : k₀ = x
      · subst hx
        simp [assocRemove, hk, assocFind]
      · simp [assocRemove, hk, assocFind, hx, ih]

theorem newCount_congr (l : List String) :
    ∀ k₁ k₂ : List String, (∀ x, x ∈ k₁ ↔ x ∈ k₂) →
      newCount l k₁ = newCount l k₂ := by
  induction l with
  | nil => intro _ _ _; rfl
  | cons u us ih =>
    intro k₁ k₂ h
    by_cases hu : u ∈ k₁
    · simp [newCount, hu, (h u).mp hu, ih k₁ k₂ h]
    · have hu₂ : u ∉ k₂ := fun hh => hu ((h u).mpr hh)
      simp only [newCount, if_neg hu, if_neg hu₂]
      have : newCount us (u :: k₁) = newCount us (u :: k₂) := by
        apply ih
        intro x
        simp [h x]
      omega

/-- As long as the number of distinct URLs the run touches stays within
`maxsize = 128`, the LRU cache never evicts, so the cached
`get_url_info` behaves like an unbounded memo table. -/
theorem lruRun_eq_memoRun (calls : List String) :
    ∀ (stream : List DlOutcome) (cache : List (String × (String × InfoDict))),
      cache.length + newCount calls (cache.map Prod.fst) ≤ 128 →
      lruRun 128 calls stream cache = memoRun calls stream cache := by
  induction calls with
  | nil => intro _ _ _; rfl
  | cons u us ih =>
    intro stream cache hb
    cases hfind : assocFind u cache with
    | some v =>
      have hmem : u ∈ cache.map Prod.fst := assocFind_mem u cache v hfind
      simp only [lruRun, memoRun, hfind]
      congr 1
      apply ih
      have hlen : ((u, v) :: assocRemove u cache).length = cache.length := by
        have := assocRemove_length u cache v hfind
        simp only [List.length_cons]
        omega
      rw [hlen]
      have hkeys : ∀ x, (x ∈ ((u, v) :: assocRemove u cache).map Prod.fst) ↔
          x ∈ cache.map Prod.fst := by
        intro x
        by_cases hx : x = u
        · subst hx; simp [hmem]
        · simp only [List.map_cons, List.mem_cons]
          rw [mem_keys_assocRemove_ne u x hx cache]
          simp [hx]
      rw [newCount_congr us _ _ hkeys]
      simpa [newCount, hmem] using hb
    | none =>
      have hnotmem : u ∉ cache.map Prod.fst := (assocFind_eq_none_iff u cache).mp hfind
      have hcount : newCount (u :: us) (cache.map Prod.fst) =
          newCount us (u :: cache.map Prod.fst) + 1 := by
        simp [newCount, hnotmem]
      rw [hcount] at hb
      have htake : ∀ w : String × InfoDict, ((u, w) :: cache).take 128 = (u, w) :: cache := by
        intro w
        apply List.take_of_length_le
        simp only [List.length_cons]
        omega
      simp only [lruRun, memoRun, hfind, htake]
      congr 1
      apply ih
      simp only [List.length_cons, List.map_cons]
      omega

/-- Once the memo table binds `u` to `v`, every later call with `u`
returns `v`. -/
theorem memoRun_persist (calls : List String) :
    ∀ (stream : List DlOutcome) (cache : List (String × (String × InfoDict)))
      (u : String) (v : String × InfoDict) (j : Nat),
      assocFind u cache = some v → calls.get? j = some u →
      (memoRun calls stream cache).get? j = some v := by
  induction calls with
  | nil =>
    intro _ _ _ _ j _ hj
    simp at hj
  | cons w ws ih =>
    intro stream cache u v j hfind hj
    cases j with
    | zero =>
      rw [List.get?_cons_zero, Option.some_inj] at hj
      subst hj
      simp [memoRun, hfind]
    | succ j' =>
      rw [List.get?_cons_succ] at hj
      cases hw : assocFind w cache with
      | some vw =>
        simp only [memoRun, hw, List.get?_cons_succ]
        apply ih _ _ _ _ _ _ hj
        by_cases hwu : w = u
        · subst hwu
          rw [hw] at hfind
          simp only [assocFind, if_pos rfl]
          exact hfind
        · simp only [assocFind, if_neg hwu]
          rw [assocFind_assocRemove_ne w u (fun h => hwu h.symm) cache]
          exact hfind
      | none =>
        have hwu : w ≠ u := by
          intro h
          subst h
          rw [hw] at hfind
          exact Option.noConfusion hfind
        simp only [memoRun, hw, List.get?_cons_succ]
        apply ih _ _ _ _ _ _ hj
        simp only [assocFind, if_neg hwu]
        exact hfind

/-- In a memo-table run, calls with the same URL give the same result. -/
theorem memoRun_stable (calls : List String) :
    ∀ (stream : List DlOutcome) (cache : List (String × (String × InfoDict)))
      (i j : Nat) (u : String),
      calls.get? i = some u → calls.get? j = some u →
      (memoRun calls stream cache).get? i = (memoRun calls stream cache).get? j := by
  induction calls with
  | nil =>
    intro _ _ i j u hi _
    simp at hi
  | cons w ws ih =>
    intro stream cache i j u hi hj
    cases hw : assocFind w cache with
    | some vw =>
      have hfind₁ : assocFind w ((w, vw) :: assocRemove w cache) = some vw := by
        simp [assocFind]
      cases i with
      | zero =>
        cases j with
        | zero => rfl
        | succ j' =>
          rw [List.get?_cons_zero, Option.some_inj] at hi
          subst hi
          rw [List.get?_cons_succ] at hj
          simp only [memoRun, hw, List.get?_cons_succ, List.get?_cons_zero]
          exact (memoRun_persist ws stream _ w vw j' hfind₁ hj).symm
      | succ i' =>
        cases j with
        | zero =>
          rw [List.get?_cons_zero, Option.some_inj] at hj
          subst hj
          rw [List.get?_cons_succ] at hi
          simp only [memoRun, hw, List.get?_cons_succ, List.get?_cons_zero]
          exact memoRun_persist ws stream _ w vw i' hfind₁ hi
        | succ j' =>
          rw [List.get?_cons_succ] at hi hj
          simp only [memoRun, hw, List.get?_cons_succ]
          exact ih _ _ i' j' u hi hj
    | none =>
      have hfind₁ : assocFind w
          ((w, get_url_info (stream.headD (DlOutcome.raises "")) w) :: cache) =
          some (get_url_info (stream.headD (DlOutcome.raises "")) w) := by
        simp [assocFind]
      cases i with
      | zero =>
        cases j with
        | zero => rfl
        | succ j' =>
          rw [List.get?_cons_zero, Option.some_inj] at hi
          subst hi
          rw [List.get?_cons_succ] at hj
          simp only [memoRun, hw, List.get?_cons_succ, List.get?_cons_zero]
          exact (memoRun_persist ws stream.tail _ w _ j' hfind₁ hj).symm
      | succ i' =>
        cases j with
        | zero =>
          rw [List.get?_cons_zero, Option.some_inj] at hj
          subst hj
          rw [List.get?_cons_succ] at hi
          simp only [memoRun, hw, List.get?_cons_succ, List.get?_cons_zero]
          exact memoRun_persist ws stream.tail _ w _ i' hfind₁ hi
        | succ j' =>
          rw [List.get?_cons_succ] at hi hj
          simp only [memoRun, hw, List.get?_cons_succ]
          exact ih _ _ i' j' u hi hj

/-- C8 (amended): the `lru_cache(maxsize=128)`-memoized `get_url_info`
returns the identical `(content_type, info)` pair for every call with
the same URL string — provided the run queries at most 128 distinct
URLs, so that the entry is never evicted.  (With more distinct URLs,
eviction can force a recomputation that differs; see the
counterexample.) -/
theorem C8_memoized_stable (calls : List String) (stream : List DlOutcome)
    (i j : Nat) (u : String) (hdist : newCount calls [] ≤ 128)
    (hi : calls.get? i = some u) (hj : calls.get? j = some u) :
    (lruRun 128 calls stream []).get? i = (lruRun 128 calls stream []).get? j := by
  rw [lruRun_eq_memoRun calls stream [] (by simpa using hdist)]
  exact memoRun_stable calls stream [] i j u hi hj

theorem C8_witness :
    newCount ["a", "b", "a"] [] ≤ 128 ∧
    (lruRun 128 ["a", "b", "a"] [] []).get? 0 = (lruRun 128 ["a", "b", "a"] [] []).get? 2 :=
  ⟨by decide,
   C8_memoized_stable ["a", "b", "a"] [] 0 2 "a" (by decide) rfl rfl⟩

set_option maxRecDepth 4000 in
theorem C8_counterexample :
    c8Calls.get? 0 = some c8Url ∧ c8Calls.get? 129 = some c8Url ∧
    c8Run.get? 0 = some ("video", c8InfoA) ∧
    c8Run.get? 129 = some ("playlist", c8InfoB) ∧
    c8Run.get? 0 ≠ c8Run.get? 129 := by
  refine ⟨by decide, by decide, by decide, by decide, by decide⟩
